import Mathlib

/-!
Shallow embedding of the SLA-breach alert bot. The repository contains two
variants of the engine:

* `src/index.js` — the reply-or-reaction variant: a window of the last 3 hours
  is paged and sorted ascending, answered-ness is staff-reply-after or
  staff-reaction, the persisted state is a flat list of alerted message ids,
  and alerts are dispatched in batches of 5 with ids marked after a
  successful send.

* `src/unnamed/part_000` — the record-store variant: a single page of up to 20
  messages per channel, answered-ness is staff-reply-after only, the persisted
  state maps `channelId-messageId` keys to records with `lastAlert`,
  `snoozedUntil`, `handled` fields, and the decision applies a wait time,
  a night-hours check and an alert cooldown.

Timestamps are epoch milliseconds modelled as `Nat`. JavaScript subtraction
can go negative where Lean's `Nat` subtraction truncates at zero; in every
comparison the code performs (`msgAge > waitTime`, `msgAge < 12h`,
`now - lastAlert > cooldown`) a negative JS value and a truncated-to-zero
`Nat` value decide the comparison identically, so `Nat` subtraction is a
faithful model on all inputs.
-/

namespace ChannelNotifier

/-- Testing-mode wait time `TEST_WAIT_TIME`, src/unnamed/part_000 line 16: 2 minutes in ms. -/
def TEST_WAIT_TIME : Nat := 2 * 60 * 1000

/-- Testing-mode cooldown `TEST_ALERT_COOLDOWN`, src/unnamed/part_000 line 17: 1 minute in ms. -/
def TEST_ALERT_COOLDOWN : Nat := 1 * 60 * 1000

/-- Production wait time, src/unnamed/part_000 line 18: 45 minutes in ms. -/
def PROD_WAIT_TIME : Nat := 45 * 60 * 1000

/-- Production cooldown, src/unnamed/part_000 line 19: 30 minutes in ms. -/
def PROD_ALERT_COOLDOWN : Nat := 30 * 60 * 1000

/-- Night-hours urgency floor, src/unnamed/part_000 line 147: 12 hours in ms. -/
def HALF_DAY : Nat := 12 * 60 * 60 * 1000

/-- Lookback window of `fetchRecentMessages`, src/index.js line 41: 3 hours in ms. -/
def TIME_WINDOW : Nat := 3 * 60 * 60 * 1000

/-- A user as seen when resolving reactors (src/index.js lines 151-164):
whether the account is a bot, whether `guild.members.fetch` succeeds for it,
and whether the fetched member holds the staff/manager role. -/
structure User where
  bot : Bool
  memberKnown : Bool
  staffRole : Bool
deriving DecidableEq, Repr

/-- One reaction on a message: `fetchOk` models whether `reaction.users.fetch()`
succeeds (src/index.js lines 150, 166-168), `users` the reactors it returns. -/
structure Reaction where
  fetchOk : Bool
  users : List User
deriving DecidableEq, Repr

/-- A message as observed by either variant. `memberKnown` models whether
`msg.member` is present or `guild.members.fetch(msg.author.id)` succeeds;
`clientRole` whether the author holds a role whose name ends in `-ext`;
`staffRole` whether the author holds the staff/manager role id. -/
structure Msg where
  channelId : Nat
  msgId : Nat
  authorBot : Bool
  memberKnown : Bool
  clientRole : Bool
  staffRole : Bool
  created : Nat
  reactions : List Reaction
deriving DecidableEq, Repr

instance : Inhabited Msg := ⟨⟨0, 0, false, false, false, false, 0, []⟩⟩

/-- A persisted record of the part_000 store, mirroring the JSON object shape:
each field is `Option` because the stored object may lack it (the code reads
`existing.lastAlert || 0`, `existing.snoozedUntil || 0`,
`existing.handled || false`). `alerted` is the spec's flag name; part_000
never writes such a field, which the embedding expresses as `none`. -/
structure Rec where
  lastAlert : Option Nat
  snoozedUntil : Option Nat
  handled : Option Bool
  alerted : Option Bool
deriving DecidableEq, Repr

/-- The empty object `{}` used when `db[key]` is absent (line 131). -/
def emptyRec : Rec := ⟨none, none, none, none⟩

/-- The part_000 store: `channelId-msgId` keys to records. -/
def Db : Type := Nat × Nat → Option Rec

/-- The key `${channel.id}-${msg.id}` (src/unnamed/part_000 line 130). -/
def keyOf (m : Msg) : Nat × Nat := (m.channelId, m.msgId)

/-- The record written on alert (line 156): `{ lastAlert: now, handled: false }`
— a wholesale replacement, with no `snoozedUntil` and no `alerted` field. -/
def freshRec (now : Nat) : Rec := ⟨some now, none, some false, none⟩

/-- Pointwise store update, modelling `db[key] = rec`. -/
def setRec (db : Db) (k : Nat × Nat) (r : Rec) : Db :=
  fun k' => if k' = k then some r else db k'

/-- Outcome of the per-message policy decision in part_000 lines 130-159.
The code only materialises the alert; `suppress` names the branch where the
age/night gate passed but the cooldown comparison failed, and `noAction`
every other non-alerting branch. -/
inductive Decision where
  | noAction
  | suppress
  | alertNow
deriving DecidableEq, Repr

/-- Wait time selected by the `TESTING` flag (line 142). -/
def waitTimeOf (testing : Bool) : Nat :=
  if testing then TEST_WAIT_TIME else PROD_WAIT_TIME

/-- Cooldown selected by the `TESTING` flag (line 150). -/
def cooldownOf (testing : Bool) : Nat :=
  if testing then TEST_ALERT_COOLDOWN else PROD_ALERT_COOLDOWN

/-- The night test `new Date().getHours() < 8 || new Date().getHours() >= 21`
(line 146). -/
def isNightHour (hour : Nat) : Bool :=
  decide (hour < 8) || decide (21 ≤ hour)

/-- The part_000 policy decision, src/unnamed/part_000 lines 130-159.
`hour` is the local wall-clock hour read by `new Date().getHours()`. -/
def decideP0 (testing : Bool) (hour now created : Nat) (rec : Option Rec) :
    Decision :=
  let existing := rec.getD emptyRec
  let lastAlert := existing.lastAlert.getD 0
  let snoozedUntil := existing.snoozedUntil.getD 0
  let handled := existing.handled.getD false
  if handled || decide (snoozedUntil > now) then .noAction
  else
    let msgAge := now - created
    let isOld := decide (msgAge > waitTimeOf testing)
    let nightCheck :=
      !testing && isNightHour hour && decide (msgAge < HALF_DAY)
    if isOld || nightCheck then
      if decide (now - lastAlert > cooldownOf testing) then .alertNow
      else .suppress
    else .noAction

/-- Holds exactly when the decision reaches the `alertMessages.push` branch. -/
def alertsP0 (testing : Bool) (hour now created : Nat) (rec : Option Rec) :
    Bool :=
  decide (decideP0 testing hour now created rec = .alertNow)

/-- The staff-reply scan of src/unnamed/part_000 lines 99-125: some message of
the fetched page with a strictly later timestamp, a resolvable member, and the
staff role. The code performs no bot check and no channel check here. -/
def staffReplied (m : Msg) (page : List Msg) : Bool :=
  page.any fun r =>
    decide (m.created < r.created) && r.memberKnown && r.staffRole

/-- The per-message skip conditions of part_000 lines 75-92 that precede the
reply scan: bot author, unresolvable member, or no client (`-ext`) role. -/
def skipP0 (m : Msg) : Bool :=
  m.authorBot || !m.memberKnown || !m.clientRole

/-- Process the messages of one part_000 channel page in iteration order
(lines 74-161): skip bots / unknown members / non-clients / staff-replied
messages, then run the policy decision against the current record and, on
`alertNow`, queue the alert and overwrite the record with `freshRec now`.
`page` is the full fetched page (the reply scan ranges over it);
`list` is the remaining portion being iterated. -/
def procP0 (testing : Bool) (hour now : Nat) (page : List Msg) (db : Db) :
    List Msg → Db × List Msg
  | [] => (db, [])
  | m :: rest =>
    if skipP0 m then procP0 testing hour now page db rest
    else if staffReplied m page then procP0 testing hour now page db rest
    else if alertsP0 testing hour now m.created (db (keyOf m)) then
      let next := procP0 testing hour now page (setRec db (keyOf m) (freshRec now)) rest
      (next.1, m :: next.2)
    else procP0 testing hour now page db rest

/-- One part_000 run over all channels (lines 68-165): each channel
contributes one fetched page, processed in sequence against the shared store.
Returns the final store and the queued alerts (each alert identified by the
message it reports). A channel-level transport error only skips that channel,
which the model expresses by the page list containing the successfully
fetched pages. -/
def scanP0 (testing : Bool) (hour now : Nat) (db : Db) :
    List (List Msg) → Db × List Msg
  | [] => (db, [])
  | page :: pages =>
    let this := procP0 testing hour now page db page
    let next := scanP0 testing hour now this.1 pages
    (next.1, this.2 ++ next.2)

/-- The send loop of part_000 lines 168-179: alerts are sent one by one; the
surrounding try/catch means the first failing send aborts the remaining
sends. `ok i` tells whether the i-th send succeeds. -/
def sendAll (ok : Nat → Bool) (i : Nat) : List Msg → List Msg
  | [] => []
  | a :: rest => if ok i then a :: sendAll ok (i + 1) rest else []

/-- A full part_000 run: scan all channels, then send. The store is written
(`saveDB`, line 185) regardless of the send outcome, so the returned store is
the scan's store; the third component is the list of alerts actually sent. -/
def runP0 (testing : Bool) (hour now : Nat) (ok : Nat → Bool) (db : Db)
    (pages : List (List Msg)) : Db × List Msg × List Msg :=
  let s := scanP0 testing hour now db pages
  (s.1, s.2, sendAll ok 0 s.2)

/-! ### The src/index.js variant -/

/-- The staff-reply scan of src/index.js lines 129-142: a message of the same
channel with a strictly later timestamp, a non-bot author, a resolvable
member, and the manager role. -/
def hasStaffReply (m : Msg) (w : List Msg) : Bool :=
  w.any fun r =>
    decide (r.channelId = m.channelId) && decide (m.created < r.created) &&
      !r.authorBot && r.memberKnown && r.staffRole

/-- Whether scanning one reaction's reactors finds a staff member
(src/index.js lines 148-165): the `users.fetch()` must succeed, and some
non-bot reactor must resolve to a member holding the manager role. -/
def reactionHasStaff (r : Reaction) : Bool :=
  r.fetchOk && r.users.any fun u => !u.bot && u.memberKnown && u.staffRole

/-- The staff-reaction check of src/index.js lines 145-171, together with the
number of `reaction.users.fetch()` round-trips it performs: reactions are
scanned in order and the scan stops at the first staff reactor found; each
reaction scanned costs one fetch. An empty reaction cache returns early with
no fetch (line 146). -/
def hasStaffReaction : List Reaction → Bool × Nat
  | [] => (false, 0)
  | r :: rest =>
    if reactionHasStaff r then (true, 1)
    else
      let next := hasStaffReaction rest
      (next.1, next.2 + 1)

/-- The `isAnswered` combination of src/index.js line 173, with its reaction-fetch count.
The code computes `hasStaffReply` and `hasStaffReaction` as two separate
awaited constants before combining them with `||`, so the reaction fetches
happen whether or not a staff reply was found; the count therefore depends
only on the message's reactions. -/
def isAnswered (m : Msg) (w : List Msg) : Bool × Nat :=
  let hr := hasStaffReply m w
  let hx := hasStaffReaction m.reactions
  (hr || hx.1, hx.2)

/-- The per-message skip conditions of src/index.js lines 109-126. -/
def skipIdx (m : Msg) : Bool :=
  m.authorBot || !m.memberKnown || !m.clientRole

/-- Classification pass over one channel window (src/index.js lines 108-198):
returns, in iteration order, the new unanswered messages (not answered, not
yet alerted) and the ids of previously alerted messages now answered.
`w` is the whole window (the reply scan ranges over it); `list` the portion
still to process; `db` the `alertedMessages` id list, unchanged during the
pass. -/
def classifyWindow (db : List Nat) (w : List Msg) :
    List Msg → List Msg × List Nat
  | [] => ([], [])
  | m :: rest =>
    let next := classifyWindow db w rest
    if skipIdx m then next
    else
      let ans := (isAnswered m w).1
      if ans then
        if db.contains m.msgId then (next.1, m.msgId :: next.2) else next
      else
        if db.contains m.msgId then next else (m :: next.1, next.2)

/-- Classification over all channel windows (src/index.js lines 97-206),
concatenating each channel's unanswered messages and answered ids. -/
def classifyAll (db : List Nat) : List (List Msg) → List Msg × List Nat
  | [] => ([], [])
  | w :: ws =>
    let this := classifyWindow db w w
    let next := classifyAll db ws
    (this.1 ++ next.1, this.2 ++ next.2)

/-- Grouping into batches of 5 (src/index.js lines 226-229). -/
def chunk5 : List Msg → List (List Msg)
  | [] => []
  | m :: rest => (m :: rest.take 4) :: chunk5 (rest.drop 4)
termination_by l => l.length
decreasing_by
  simp only [List.length_cons, List.length_drop]
  omega

/-- The dispatch loop of src/index.js lines 231-243: each batch is sent, and
only after a successful send are its member ids pushed onto
`alertedMessages`; the surrounding try/catch means the first failing send
aborts the loop, leaving that batch and all later batches unsent and
unmarked. `ok i` tells whether the i-th batch's send succeeds. Returns the
updated id list and the messages actually sent. -/
def dispatchIdx (db : List Nat) (ok : Nat → Bool) (i : Nat) :
    List (List Msg) → List Nat × List Msg
  | [] => (db, [])
  | b :: rest =>
    if ok i then
      let next := dispatchIdx (db ++ b.map Msg.msgId) ok (i + 1) rest
      (next.1, b ++ next.2)
    else (db, [])

/-- One full src/index.js run over already-built windows (lines 94-254):
classify every window against the loaded `alertedMessages` list, drop the
newly answered ids from it (lines 209-212), then dispatch the new unanswered
messages in batches of 5. Returns the saved id list and the alerts sent. -/
def runIdx (db : List Nat) (windows : List (List Msg)) (ok : Nat → Bool) :
    List Nat × List Msg :=
  let c := classifyAll db windows
  let db1 := db.filter fun id => !c.2.contains id
  dispatchIdx db1 ok 0 (chunk5 c.1)

/-! ### Window construction -/

/-- The inner page loop of `fetchRecentMessages` (src/index.js lines 51-57):
messages of a page are pushed in order until one older than the cutoff is
met, at which point the whole fetch returns early. Returns the kept prefix
and whether the early return fired. -/
def takeUntilOld (cutoff : Nat) : List Msg → List Msg × Bool
  | [] => ([], false)
  | m :: rest =>
    if m.created < cutoff then ([], true)
    else
      let next := takeUntilOld cutoff rest
      (m :: next.1, next.2)

/-- The paged fetch `fetchRecentMessages` of src/index.js lines 39-69, over the transport's
successive pages (each `channel.messages.fetch` response, at most 100
messages, native newest-first order — though the model does not rely on that
order): pages are consumed until the per-message cutoff fires, a page is
shorter than 100, the last message of a page predates the cutoff, or the
transport has no further page. -/
def fetchRecentMessages (cutoff : Nat) : List (List Msg) → List Msg
  | [] => []
  | page :: pages =>
    let t := takeUntilOld cutoff page
    if t.2 then t.1
    else if page.length < 100 then t.1
    else if (page.getLastD default).created < cutoff then t.1
    else t.1 ++ fetchRecentMessages cutoff pages

/-- Ordered insertion by `createdTimestamp`. -/
def insertAsc (m : Msg) : List Msg → List Msg
  | [] => [m]
  | x :: xs =>
    if m.created ≤ x.created then m :: x :: xs else x :: insertAsc m xs

/-- The ascending sort of src/index.js line 106
(`allMessages.sort((a, b) => a.createdTimestamp - b.createdTimestamp)`),
modelled as insertion sort: any comparison sort realises the same
specification. -/
def sortWindow : List Msg → List Msg
  | [] => []
  | x :: xs => insertAsc x (sortWindow xs)

/-- The window src/index.js hands to per-message evaluation for one channel:
the paged 3-hour fetch, sorted ascending (lines 102-106). -/
def buildWindow (now : Nat) (pages : List (List Msg)) : List Msg :=
  sortWindow (fetchRecentMessages (now - TIME_WINDOW) pages)

/-- The window src/unnamed/part_000 hands to per-message evaluation for one
channel (lines 70-74): the single fetched page of up to 20 messages is
iterated exactly as the transport returns it — no age cutoff is applied and
no reordering happens. -/
def buildWindowP0 (page : List Msg) : List Msg := page

/-! ### Concrete instances used by witnesses and counterexamples -/

/-- A non-bot reactor whose member resolves and holds the staff role. -/
def staffUser : User := ⟨false, true, true⟩

/-- A reference run instant (a realistic epoch-milliseconds clock). -/
def nowRef : Nat := 1000000000000

/-- A client-authored message created at time 0 with no reactions. -/
def clientMsg : Msg := ⟨1, 10, false, true, true, false, 0, []⟩

/-- The same client message carrying one staff reaction. -/
def clientMsgReacted : Msg := ⟨1, 10, false, true, true, false, 0, [⟨true, [staffUser]⟩]⟩

/-- A staff reply in the same channel, 50 ms after the client message. -/
def staffReplyMsg : Msg := ⟨1, 11, false, true, false, true, 50, []⟩

/-- A client-authored message created at the reference instant. -/
def recentMsg : Msg := ⟨1, 12, false, true, true, false, nowRef, []⟩

/-- The empty part_000 store. -/
def emptyDb : Db := fun _ => none

/-- A store holding a prior alert record for `clientMsg`'s key. -/
def dbWithRecord : Db :=
  fun k => if k = keyOf clientMsg then some (freshRec 5) else none

/-- A store whose record for `clientMsg`'s key is marked handled. -/
def dbHandled : Db :=
  fun k => if k = keyOf clientMsg then some ⟨none, none, some true, none⟩
    else none

/-! ### Helper lemmas: the part_000 store across a run -/

/-- A record freshly written at time `now` can never alert again at `now`:
`now - now = 0` is not greater than any cooldown. -/
theorem alertsP0_freshRec (t : Bool) (hr n c : Nat) :
    alertsP0 t hr n c (some (freshRec n)) = false := by
  simp only [alertsP0, decideP0, freshRec, Option.getD_some, Nat.sub_self]
  split
  · simp
  · split
    · simp
    · simp

/-- Every store cell after `procP0` is either untouched or the fresh record. -/
theorem procP0_db_cases (t : Bool) (hr n : Nat) (page : List Msg) :
    ∀ (list : List Msg) (db : Db) (k : Nat × Nat),
      (procP0 t hr n page db list).1 k = db k ∨
      (procP0 t hr n page db list).1 k = some (freshRec n) := by
  intro list
  induction list with
  | nil => intro db k; exact Or.inl rfl
  | cons m rest ih =>
    intro db k
    simp only [procP0]
    split
    · exact ih db k
    split
    · exact ih db k
    split
    · rcases ih (setRec db (keyOf m) (freshRec n)) k with h1 | h1
      · rw [h1]
        by_cases hk : k = keyOf m
        · right; simp [setRec, hk]
        · left; simp [setRec, hk]
      · exact Or.inr h1
    · exact ih db k

/-- Every store cell after `scanP0` is either untouched or the fresh record. -/
theorem scanP0_db_cases (t : Bool) (hr n : Nat) :
    ∀ (pages : List (List Msg)) (db : Db) (k : Nat × Nat),
      (scanP0 t hr n db pages).1 k = db k ∨
      (scanP0 t hr n db pages).1 k = some (freshRec n) := by
  intro pages
  induction pages with
  | nil => intro db k; exact Or.inl rfl
  | cons page pages ih =>
    intro db k
    simp only [scanP0]
    rcases ih (procP0 t hr n page db page).1 k with h1 | h1
    · rw [h1]; exact procP0_db_cases t hr n page page db k
    · exact Or.inr h1

/-- A no-alert verdict survives any store evolution produced by a run at the
same `now`: the cell is either unchanged or holds the fresh record. -/
theorem alertsP0_stable (t : Bool) (hr n c : Nat) {db' db'' : Db}
    {k : Nat × Nat}
    (h1 : alertsP0 t hr n c (db' k) = false)
    (h2 : db'' k = db' k ∨ db'' k = some (freshRec n)) :
    alertsP0 t hr n c (db'' k) = false := by
  rcases h2 with h2 | h2
  · rw [h2]; exact h1
  · rw [h2]; exact alertsP0_freshRec t hr n c

/-- After `procP0`, no message of the processed list that reaches the policy
decision can still alert against the resulting store. -/
theorem procP0_post (t : Bool) (hr n : Nat) (page : List Msg) :
    ∀ (list : List Msg) (db : Db) (m : Msg), m ∈ list →
      skipP0 m = false → staffReplied m page = false →
      alertsP0 t hr n m.created ((procP0 t hr n page db list).1 (keyOf m)) =
        false := by
  intro list
  induction list with
  | nil => intro db m hm; exact absurd hm (List.not_mem_nil m)
  | cons m0 rest ih =>
    intro db m hm hskip hrep
    rcases List.mem_cons.mp hm with hm | hm
    · subst hm
      simp only [procP0, hskip, hrep, if_neg Bool.false_ne_true]
      by_cases hal : alertsP0 t hr n m.created (db (keyOf m)) = true
      · rw [if_pos hal]
        have hfresh :
            (procP0 t hr n page (setRec db (keyOf m) (freshRec n)) rest).1
              (keyOf m) = some (freshRec n) := by
          rcases procP0_db_cases t hr n page rest
            (setRec db (keyOf m) (freshRec n)) (keyOf m) with h1 | h1
          · rw [h1]; simp [setRec]
          · exact h1
        show alertsP0 t hr n m.created
          ((procP0 t hr n page (setRec db (keyOf m) (freshRec n)) rest).1
            (keyOf m)) = false
        rw [hfresh]
        exact alertsP0_freshRec t hr n m.created
      · rw [if_neg hal]
        refine alertsP0_stable t hr n m.created (Bool.eq_false_iff.mpr hal) ?_
        exact procP0_db_cases t hr n page rest db (keyOf m)
    · simp only [procP0]
      split
      · exact ih db m hm hskip hrep
      split
      · exact ih db m hm hskip hrep
      split
      · exact ih (setRec db (keyOf m0) (freshRec n)) m hm hskip hrep
      · exact ih db m hm hskip hrep

/-- After `scanP0`, no message of any processed page that reaches the policy
decision can still alert against the resulting store. -/
theorem scanP0_post (t : Bool) (hr n : Nat) :
    ∀ (pages : List (List Msg)) (db : Db) (page : List Msg) (m : Msg),
      page ∈ pages → m ∈ page →
      skipP0 m = false → staffReplied m page = false →
      alertsP0 t hr n m.created ((scanP0 t hr n db pages).1 (keyOf m)) =
        false := by
  intro pages
  induction pages with
  | nil => intro db page m hp; exact absurd hp (List.not_mem_nil page)
  | cons p ps ih =>
    intro db page m hp hm hskip hrep
    rcases List.mem_cons.mp hp with hp | hp
    · subst hp
      simp only [scanP0]
      refine alertsP0_stable t hr n m.created
        (procP0_post t hr n page page db m hm hskip hrep) ?_
      exact scanP0_db_cases t hr n ps (procP0 t hr n page db page).1 (keyOf m)
    · simp only [scanP0]
      exact ih (procP0 t hr n p db p).1 page m hp hm hskip hrep

/-- If every message of the list that reaches the policy decision gets a
no-alert verdict against `db`, then `procP0` changes nothing and queues
nothing. -/
theorem procP0_noalert (t : Bool) (hr n : Nat) (page : List Msg) :
    ∀ (list : List Msg) (db : Db),
      (∀ m ∈ list, skipP0 m = false → staffReplied m page = false →
        alertsP0 t hr n m.created (db (keyOf m)) = false) →
      procP0 t hr n page db list = (db, []) := by
  intro list
  induction list with
  | nil => intro db _; rfl
  | cons m rest ih =>
    intro db hall
    simp only [procP0]
    by_cases hskip : skipP0 m = true
    · rw [if_pos hskip]
      exact ih db fun m' hm' => hall m' (List.mem_cons_of_mem m hm')
    · rw [if_neg hskip]
      by_cases hrep : staffReplied m page = true
      · rw [if_pos hrep]
        exact ih db fun m' hm' => hall m' (List.mem_cons_of_mem m hm')
      · rw [if_neg hrep]
        rw [if_neg (by
          rw [hall m (List.mem_cons_self m rest)
            (Bool.eq_false_iff.mpr hskip) (Bool.eq_false_iff.mpr hrep)]
          exact Bool.false_ne_true)]
        exact ih db fun m' hm' => hall m' (List.mem_cons_of_mem m hm')

/-- If every message of every page that reaches the policy decision gets a
no-alert verdict against `db`, then `scanP0` changes nothing and queues
nothing. -/
theorem scanP0_noalert (t : Bool) (hr n : Nat) :
    ∀ (pages : List (List Msg)) (db : Db),
      (∀ page ∈ pages, ∀ m ∈ page,
        skipP0 m = false → staffReplied m page = false →
        alertsP0 t hr n m.created (db (keyOf m)) = false) →
      scanP0 t hr n db pages = (db, []) := by
  intro pages
  induction pages with
  | nil => intro db _; rfl
  | cons p ps ih =>
    intro db hall
    simp only [scanP0]
    rw [procP0_noalert t hr n p p db
      (fun m hm => hall p (List.mem_cons_self p ps) m hm)]
    rw [ih db fun page hp m hm => hall page (List.mem_cons_of_mem p hp) m hm]
    rfl

/-! ### Helper lemmas: the src/index.js classification and dispatch -/

/-- Message ids determine messages and their windows: no id occurs under two
distinct messages or in two distinct windows. True of real transports, where
message ids are globally unique. -/
def UniqueIds (windows : List (List Msg)) : Prop :=
  ∀ w ∈ windows, ∀ w' ∈ windows, ∀ m ∈ w, ∀ m' ∈ w',
    m.msgId = m'.msgId → m = m' ∧ w = w'

instance (windows : List (List Msg)) : Decidable (UniqueIds windows) := by
  unfold UniqueIds
  infer_instance

/-- Soundness of the unanswered list: each entry comes from the processed
list, is eligible, unanswered, and not yet alerted. -/
theorem classifyWindow_unanswered_sound (db : List Nat) (w : List Msg) :
    ∀ (list : List Msg) (x : Msg), x ∈ (classifyWindow db w list).1 →
      x ∈ list ∧ skipIdx x = false ∧ (isAnswered x w).1 = false ∧
        db.contains x.msgId = false := by
  intro list
  induction list with
  | nil => intro x hx; exact absurd hx (List.not_mem_nil x)
  | cons m rest ih =>
    intro x hx
    simp only [classifyWindow] at hx
    split at hx
    · obtain ⟨h1, h2⟩ := ih x hx
      exact ⟨List.mem_cons_of_mem m h1, h2⟩
    split at hx
    · split at hx <;>
      · obtain ⟨h1, h2⟩ := ih x hx
        exact ⟨List.mem_cons_of_mem m h1, h2⟩
    · split at hx
      · obtain ⟨h1, h2⟩ := ih x hx
        exact ⟨List.mem_cons_of_mem m h1, h2⟩
      · rcases List.mem_cons.mp hx with hx | hx
        · subst hx
          refine ⟨List.mem_cons_self x rest, ?_, ?_, ?_⟩
          · simp_all
          · simp_all
          · simp_all
        · obtain ⟨h1, h2⟩ := ih x hx
          exact ⟨List.mem_cons_of_mem m h1, h2⟩

/-- Completeness of the unanswered list: an eligible, unanswered, not yet
alerted message of the processed list appears in it. -/
theorem classifyWindow_unanswered_complete (db : List Nat) (w : List Msg) :
    ∀ (list : List Msg) (m : Msg), m ∈ list →
      skipIdx m = false → (isAnswered m w).1 = false →
      db.contains m.msgId = false →
      m ∈ (classifyWindow db w list).1 := by
  intro list
  induction list with
  | nil => intro m hm; exact absurd hm (List.not_mem_nil m)
  | cons m0 rest ih =>
    intro m hm hskip hans hdb
    rcases List.mem_cons.mp hm with hm | hm
    · subst hm
      simp only [classifyWindow, hskip, hans, hdb,
        if_neg Bool.false_ne_true]
      exact List.mem_cons_self m _
    · have hrec := ih m hm hskip hans hdb
      simp only [classifyWindow]
      split
      · exact hrec
      split
      · split
        · exact hrec
        · exact hrec
      · split
        · exact hrec
        · exact List.mem_cons_of_mem m0 hrec

/-- Soundness of the answered-id list: each entry is the id of an eligible,
answered, previously alerted message of the processed list. -/
theorem classifyWindow_answered_sound (db : List Nat) (w : List Msg) :
    ∀ (list : List Msg) (x : Nat), x ∈ (classifyWindow db w list).2 →
      ∃ m ∈ list, skipIdx m = false ∧ (isAnswered m w).1 = true ∧
        db.contains m.msgId = true ∧ x = m.msgId := by
  intro list
  induction list with
  | nil => intro x hx; exact absurd hx (List.not_mem_nil x)
  | cons m0 rest ih
  => intro x hx
     simp only [classifyWindow] at hx
     split at hx
     · obtain ⟨m, h1, h2⟩ := ih x hx
       exact ⟨m, List.mem_cons_of_mem m0 h1, h2⟩
     split at hx
     · split at hx
       · rcases List.mem_cons.mp hx with hx | hx
         · exact ⟨m0, List.mem_cons_self m0 rest, by simp_all, by simp_all,
             by simp_all, hx⟩
         · obtain ⟨m, h1, h2⟩ := ih x hx
           exact ⟨m, List.mem_cons_of_mem m0 h1, h2⟩
       · obtain ⟨m, h1, h2⟩ := ih x hx
         exact ⟨m, List.mem_cons_of_mem m0 h1, h2⟩
     · split at hx <;>
       · obtain ⟨m, h1, h2⟩ := ih x hx
         exact ⟨m, List.mem_cons_of_mem m0 h1, h2⟩

/-- Completeness of the answered-id list: an eligible, answered, previously
alerted message of the processed list contributes its id. -/
theorem classifyWindow_answered_complete (db : List Nat) (w : List Msg) :
    ∀ (list : List Msg) (m : Msg), m ∈ list →
      skipIdx m = false → (isAnswered m w).1 = true →
      db.contains m.msgId = true →
      m.msgId ∈ (classifyWindow db w list).2 := by
  intro list
  induction list with
  | nil => intro m hm; exact absurd hm (List.not_mem_nil m)
  | cons m0 rest ih =>
    intro m hm hskip hans hdb
    rcases List.mem_cons.mp hm with hm | hm
    · subst hm
      simp only [classifyWindow, hskip, hans, hdb, if_pos,
        if_neg Bool.false_ne_true]
      exact List.mem_cons_self m.msgId _
    · have hrec := ih m hm hskip hans hdb
      simp only [classifyWindow]
      split
      · exact hrec
      split
      · split
        · exact List.mem_cons_of_mem m0.msgId hrec
        · exact hrec
      · split
        · exact hrec
        · exact hrec

/-- Soundness of `classifyAll` for the unanswered list. -/
theorem classifyAll_unanswered_sound (db : List Nat) :
    ∀ (windows : List (List Msg)) (x : Msg),
      x ∈ (classifyAll db windows).1 →
      ∃ w ∈ windows, x ∈ w ∧ skipIdx x = false ∧
        (isAnswered x w).1 = false ∧ db.contains x.msgId = false := by
  intro windows
  induction windows with
  | nil => intro x hx; exact absurd hx (List.not_mem_nil x)
  | cons w ws ih =>
    intro x hx
    simp only [classifyAll] at hx
    rcases List.mem_append.mp hx with hx | hx
    · obtain ⟨h1, h2⟩ := classifyWindow_unanswered_sound db w w x hx
      exact ⟨w, List.mem_cons_self w ws, h1, h2⟩
    · obtain ⟨w', h1, h2⟩ := ih x hx
      exact ⟨w', List.mem_cons_of_mem w h1, h2⟩

/-- Completeness of `classifyAll` for the unanswered list. -/
theorem classifyAll_unanswered_complete (db : List Nat) :
    ∀ (windows : List (List Msg)) (w : List Msg) (m : Msg),
      w ∈ windows → m ∈ w → skipIdx m = false →
      (isAnswered m w).1 = false → db.contains m.msgId = false →
      m ∈ (classifyAll db windows).1 := by
  intro windows
  induction windows with
  | nil => intro w m hw; exact absurd hw (List.not_mem_nil w)
  | cons w0 ws ih =>
    intro w m hw hm hskip hans hdb
    simp only [classifyAll]
    rcases List.mem_cons.mp hw with hw | hw
    · subst hw
      exact List.mem_append_left _
        (classifyWindow_unanswered_complete db w w m hm hskip hans hdb)
    · exact List.mem_append_right _ (ih w m hw hm hskip hans hdb)

/-- Soundness of `classifyAll` for the answered-id list. -/
theorem classifyAll_answered_sound (db : List Nat) :
    ∀ (windows : List (List Msg)) (x : Nat),
      x ∈ (classifyAll db windows).2 →
      ∃ w ∈ windows, ∃ m ∈ w, skipIdx m = false ∧
        (isAnswered m w).1 = true ∧ db.contains m.msgId = true ∧
        x = m.msgId := by
  intro windows
  induction windows with
  | nil => intro x hx; exact absurd hx (List.not_mem_nil x)
  | cons w ws ih =>
    intro x hx
    simp only [classifyAll] at hx
    rcases List.mem_append.mp hx with hx | hx
    · obtain ⟨m, h1, h2⟩ := classifyWindow_answered_sound db w w x hx
      exact ⟨w, List.mem_cons_self w ws, m, h1, h2⟩
    · obtain ⟨w', h1, h2⟩ := ih x hx
      exact ⟨w', List.mem_cons_of_mem w h1, h2⟩

/-- Completeness of `classifyAll` for the answered-id list. -/
theorem classifyAll_answered_complete (db : List Nat) :
    ∀ (windows : List (List Msg)) (w : List Msg) (m : Msg),
      w ∈ windows → m ∈ w → skipIdx m = false →
      (isAnswered m w).1 = true → db.contains m.msgId = true →
      m.msgId ∈ (classifyAll db windows).2 := by
  intro windows
  induction windows with
  | nil => intro w m hw; exact absurd hw (List.not_mem_nil w)
  | cons w0 ws ih =>
    intro w m hw hm hskip hans hdb
    simp only [classifyAll]
    rcases List.mem_cons.mp hw with hw | hw
    · subst hw
      exact List.mem_append_left _
        (classifyWindow_answered_complete db w w m hm hskip hans hdb)
    · exact List.mem_append_right _ (ih w m hw hm hskip hans hdb)

/-- Rechunking loses nothing: the batches of 5 concatenate back to the list. -/
theorem chunk5_join : ∀ l : List Msg, (chunk5 l).flatten = l
  | [] => by rw [chunk5]; rfl
  | m :: rest => by
    rw [chunk5]
    simp only [List.flatten_cons]
    have ih := chunk5_join (rest.drop 4)
    rw [ih]
    simp [List.take_append_drop]
termination_by l => l.length
decreasing_by
  simp only [List.length_cons, List.length_drop]
  omega

/-- The dispatch loop marks exactly the ids of the messages it sent, appended
after the incoming id list: marking happens only after a successful send. -/
theorem dispatchIdx_marks_sent (ok : Nat → Bool) :
    ∀ (batches : List (List Msg)) (db : List Nat) (i : Nat),
      (dispatchIdx db ok i batches).1 =
        db ++ ((dispatchIdx db ok i batches).2).map Msg.msgId := by
  intro batches
  induction batches with
  | nil => intro db i; simp [dispatchIdx]
  | cons b rest ih =>
    intro db i
    simp only [dispatchIdx]
    split
    · rw [ih (db ++ b.map Msg.msgId) (i + 1)]
      simp
    · simp

/-- Every message the dispatch loop sends comes from its batches. -/
theorem dispatchIdx_sent_sub (ok : Nat → Bool) :
    ∀ (batches : List (List Msg)) (db : List Nat) (i : Nat) (x : Msg),
      x ∈ (dispatchIdx db ok i batches).2 → x ∈ batches.flatten := by
  intro batches
  induction batches with
  | nil => intro db i x hx; exact absurd hx (List.not_mem_nil x)
  | cons b rest ih =>
    intro db i x hx
    simp only [dispatchIdx] at hx
    split at hx
    · simp only [List.flatten_cons]
      rcases List.mem_append.mp hx with hx | hx
      · exact List.mem_append_left _ hx
      · exact List.mem_append_right _ (ih _ (i + 1) x hx)
    · exact absurd hx (List.not_mem_nil x)

/-- When every send succeeds, the dispatch loop sends all batches. -/
theorem dispatchIdx_all_ok :
    ∀ (batches : List (List Msg)) (db : List Nat) (i : Nat),
      dispatchIdx db (fun _ => true) i batches =
        (db ++ batches.flatten.map Msg.msgId, batches.flatten) := by
  intro batches
  induction batches with
  | nil => intro db i; simp [dispatchIdx]
  | cons b rest ih =>
    intro db i
    simp only [dispatchIdx, if_pos]
    rw [ih (db ++ b.map Msg.msgId) (i + 1)]
    simp [List.flatten_cons]

/-! ### Helper lemmas: window construction -/

/-- Chronological order on messages. -/
def ByCreated (a b : Msg) : Prop := a.created ≤ b.created

instance : DecidableRel ByCreated := fun a b => by
  unfold ByCreated; infer_instance

/-- Everything the page loop keeps passed the individual cutoff test. -/
theorem takeUntilOld_mem (cutoff : Nat) :
    ∀ (l : List Msg) (x : Msg), x ∈ (takeUntilOld cutoff l).1 →
      cutoff ≤ x.created ∧ x ∈ l := by
  intro l
  induction l with
  | nil => intro x hx; exact absurd hx (List.not_mem_nil x)
  | cons m rest ih =>
    intro x hx
    simp only [takeUntilOld] at hx
    split at hx
    · exact absurd hx (List.not_mem_nil x)
    · rcases List.mem_cons.mp hx with hx | hx
      · subst hx
        exact ⟨Nat.le_of_not_lt (by assumption), List.mem_cons_self x rest⟩
      · obtain ⟨h1, h2⟩ := ih x hx
        exact ⟨h1, List.mem_cons_of_mem m h2⟩

/-- Nothing the paged fetch returns is older than the cutoff. -/
theorem fetchRecentMessages_cutoff (cutoff : Nat) :
    ∀ (pages : List (List Msg)) (m : Msg),
      m ∈ fetchRecentMessages cutoff pages → cutoff ≤ m.created := by
  intro pages
  induction pages with
  | nil => intro m hm; exact absurd hm (List.not_mem_nil m)
  | cons page rest ih =>
    intro m hm
    simp only [fetchRecentMessages] at hm
    split at hm
    · exact (takeUntilOld_mem cutoff page m hm).1
    split at hm
    · exact (takeUntilOld_mem cutoff page m hm).1
    split at hm
    · exact (takeUntilOld_mem cutoff page m hm).1
    · rcases List.mem_append.mp hm with hm | hm
      · exact (takeUntilOld_mem cutoff page m hm).1
      · exact ih m hm

/-- Membership through ordered insertion. -/
theorem insertAsc_mem (m : Msg) :
    ∀ (l : List Msg) (x : Msg), x ∈ insertAsc m l ↔ x = m ∨ x ∈ l := by
  intro l
  induction l with
  | nil => intro x; simp [insertAsc]
  | cons y ys ih =>
    intro x
    simp only [insertAsc]
    split
    · simp [List.mem_cons]
    · rw [List.mem_cons, ih x, List.mem_cons]
      tauto

/-- Membership through the window sort. -/
theorem sortWindow_mem :
    ∀ (l : List Msg) (x : Msg), x ∈ sortWindow l ↔ x ∈ l := by
  intro l
  induction l with
  | nil => intro x; simp [sortWindow]
  | cons y ys ih =>
    intro x
    simp only [sortWindow]
    rw [insertAsc_mem, ih x, List.mem_cons]

/-- Ordered insertion preserves chronological sortedness. -/
theorem insertAsc_sorted (m : Msg) :
    ∀ l : List Msg, l.Pairwise ByCreated → (insertAsc m l).Pairwise ByCreated := by
  intro l
  induction l with
  | nil => intro _; simp [insertAsc, ByCreated]
  | cons y ys ih =>
    intro hl
    rw [List.pairwise_cons] at hl
    simp only [insertAsc]
    split
    · rw [List.pairwise_cons]
      refine ⟨?_, List.pairwise_cons.mpr hl⟩
      intro z hz
      rcases List.mem_cons.mp hz with hz | hz
      · subst hz; assumption
      · exact Nat.le_trans (by assumption) (hl.1 z hz)
    · rw [List.pairwise_cons]
      refine ⟨?_, ih hl.2⟩
      intro z hz
      rcases (insertAsc_mem m ys z).mp hz with hz | hz
      · subst hz
        exact Nat.le_of_not_le (by assumption)
      · exact hl.1 z hz

/-- The window sort produces a chronologically ascending sequence. -/
theorem sortWindow_sorted :
    ∀ l : List Msg, (sortWindow l).Pairwise ByCreated := by
  intro l
  induction l with
  | nil => exact List.Pairwise.nil
  | cons y ys ih => exact insertAsc_sorted y (sortWindow ys) ih

/-! ### Helper lemmas: silenced records and reply-blocked messages -/

/-- A handled or future-snoozed record decides `noAction` whatever the
message age. -/
theorem decideP0_silenced (t : Bool) (hr n created : Nat) (r : Rec)
    (hsil : r.handled.getD false = true ∨ r.snoozedUntil.getD 0 > n) :
    decideP0 t hr n created (some r) = .noAction := by
  simp only [decideP0, Option.getD_some]
  rcases hsil with hs | hs
  · rw [if_pos (by simp [hs])]
  · rw [if_pos (by simp [hs])]

/-- Within one page run, a silenced record's key never alerts and its cell is
left untouched. -/
theorem procP0_silenced (t : Bool) (hr n : Nat) (page : List Msg) :
    ∀ (list : List Msg) (db : Db) (k : Nat × Nat) (r : Rec),
      db k = some r →
      (r.handled.getD false = true ∨ r.snoozedUntil.getD 0 > n) →
      (∀ m ∈ (procP0 t hr n page db list).2, keyOf m ≠ k) ∧
      (procP0 t hr n page db list).1 k = db k := by
  intro list
  induction list with
  | nil =>
    intro db k r _ _
    exact ⟨fun m hm => absurd hm (List.not_mem_nil m), rfl⟩
  | cons m0 rest ih =>
    intro db k r hk hsil
    simp only [procP0]
    split
    · exact ih db k r hk hsil
    split
    · exact ih db k r hk hsil
    split
    · have hne : keyOf m0 ≠ k := by
        intro he
        have : alertsP0 t hr n m0.created (db (keyOf m0)) = false := by
          rw [he, hk, alertsP0, decideP0_silenced t hr n m0.created r hsil]
          rfl
        simp_all
      have hk' : setRec db (keyOf m0) (freshRec n) k = some r := by
        have hkk : k ≠ keyOf m0 := fun he => hne he.symm
        simp [setRec, hkk, hk]
      obtain ⟨ha, hd⟩ :=
        ih (setRec db (keyOf m0) (freshRec n)) k r hk' hsil
      refine ⟨?_, by rw [hd, hk', hk]⟩
      intro m hm
      rcases List.mem_cons.mp hm with hm | hm
      · subst hm; exact hne
      · exact ha m hm
    · exact ih db k r hk hsil

/-- Across a whole scan, a silenced record's key never alerts and its cell is
left untouched. -/
theorem scanP0_silenced (t : Bool) (hr n : Nat) :
    ∀ (pages : List (List Msg)) (db : Db) (k : Nat × Nat) (r : Rec),
      db k = some r →
      (r.handled.getD false = true ∨ r.snoozedUntil.getD 0 > n) →
      (∀ m ∈ (scanP0 t hr n db pages).2, keyOf m ≠ k) ∧
      (scanP0 t hr n db pages).1 k = db k := by
  intro pages
  induction pages with
  | nil =>
    intro db k r _ _
    exact ⟨fun m hm => absurd hm (List.not_mem_nil m), rfl⟩
  | cons p ps ih =>
    intro db k r hk hsil
    simp only [scanP0]
    obtain ⟨ha1, hd1⟩ := procP0_silenced t hr n p p db k r hk hsil
    obtain ⟨ha2, hd2⟩ :=
      ih (procP0 t hr n p db p).1 k r (by rw [hd1, hk]) hsil
    refine ⟨?_, by rw [hd2, hd1]⟩
    intro m hm
    rcases List.mem_append.mp hm with hm | hm
    · exact ha1 m hm
    · exact ha2 m hm

/-- In part_000, a message with a qualifying staff reply in its page is
skipped before the policy decision and never queued. -/
theorem procP0_staffReplied_no_alert (t : Bool) (hr n : Nat) :
    ∀ (list page : List Msg) (db : Db) (m : Msg),
      staffReplied m page = true →
      m ∉ (procP0 t hr n page db list).2 := by
  intro list
  induction list with
  | nil => intro page db m _; exact List.not_mem_nil m
  | cons m0 rest ih =>
    intro page db m hrep
    simp only [procP0]
    split
    · exact ih page db m hrep
    split
    · exact ih page db m hrep
    split
    · intro hm
      rcases List.mem_cons.mp hm with hm | hm
      · subst hm; simp_all
      · exact ih page (setRec db (keyOf m0) (freshRec n)) m hrep hm
    · exact ih page db m hrep

/-- A nonempty reaction cache always costs at least one users-fetch. -/
theorem hasStaffReaction_pos :
    ∀ rs : List Reaction, rs ≠ [] → 0 < (hasStaffReaction rs).2 := by
  intro rs h
  cases rs with
  | nil => exact absurd rfl h
  | cons r rest =>
    simp only [hasStaffReaction]
    split
    · exact Nat.zero_lt_one
    · exact Nat.succ_pos _

/-! ### Claim theorems -/

/-- C2: the claim says that during quiet hours a breach candidate qualifies
only when its age exceeds the urgency floor, and that a message younger than
both the floor and the wait time gets `NoAction` during quiet hours. The code
does the opposite: `nightCheck = !TESTING && isNight && msgAge < 12h` is OR-ed
into the alert gate, so in production at local hour 23 a message only one
minute old — younger than the wait time and the urgency floor — is decided
`alertNow` rather than `NoAction`. -/
theorem night_young_message_alerts :
    (nowRef - (nowRef - 60000) ≤ waitTimeOf false ∧
     nowRef - (nowRef - 60000) < HALF_DAY ∧
     isNightHour 23 = true) ∧
    decideP0 false 23 nowRef (nowRef - 60000) none = .alertNow := by
  decide

/-- C4 (amended): for a breach candidate that passed the silencing check and
the age/quiet-hours gate, `now - lastAlert ≤ cooldown` decides `suppress` and
`now - lastAlert > cooldown` decides `alertNow`; an absent `lastAlert` is
stored as 0, so it decides `alertNow` provided `now` itself exceeds the
cooldown (true for any realistic clock), and after the cooldown has strictly
elapsed an unresolved message alerts again. -/
theorem cooldown_gate_decision (testing : Bool) (hour now created : Nat)
    (rec : Option Rec)
    (hhand : (rec.getD emptyRec).handled.getD false = false)
    (hsno : (rec.getD emptyRec).snoozedUntil.getD 0 ≤ now)
    (hgate : now - created > waitTimeOf testing ∨
      (testing = false ∧ isNightHour hour = true ∧
        now - created < HALF_DAY)) :
    (now - (rec.getD emptyRec).lastAlert.getD 0 ≤ cooldownOf testing →
      decideP0 testing hour now created rec = .suppress) ∧
    (cooldownOf testing < now - (rec.getD emptyRec).lastAlert.getD 0 →
      decideP0 testing hour now created rec = .alertNow) ∧
    ((rec.getD emptyRec).lastAlert = none → cooldownOf testing < now →
      decideP0 testing hour now created rec = .alertNow) := by
  have hb2 : (decide (now - created > waitTimeOf testing) ||
      (!testing && isNightHour hour &&
        decide (now - created < HALF_DAY))) = true := by
    rcases hgate with hg | ⟨hg1, hg2, hg3⟩
    · simp [hg]
    · subst hg1; simp [hg2, hg3]
  have hs : ((rec.getD emptyRec).handled.getD false ||
      decide ((rec.getD emptyRec).snoozedUntil.getD 0 > now)) = false := by
    rw [hhand]
    simp only [Bool.false_or, decide_eq_false_iff_not]
    omega
  refine ⟨?_, ?_, ?_⟩
  · intro hcd
    have hc : decide
        (now - (rec.getD emptyRec).lastAlert.getD 0 > cooldownOf testing) =
        false := by
      simp only [decide_eq_false_iff_not]
      omega
    simp only [decideP0, hs, hb2, hc, Bool.false_eq_true, if_false, if_true]
  · intro hcd
    have hc : decide
        (now - (rec.getD emptyRec).lastAlert.getD 0 > cooldownOf testing) =
        true := by
      simp only [decide_eq_true_eq]
      omega
    simp only [decideP0, hs, hb2, hc, Bool.false_eq_true, if_false, if_true]
  · intro hla hcd
    have hc : decide
        (now - (rec.getD emptyRec).lastAlert.getD 0 > cooldownOf testing) =
        true := by
      rw [hla]
      simp only [Option.getD_none, Nat.sub_zero, decide_eq_true_eq]
      omega
    simp only [decideP0, hs, hb2, hc, Bool.false_eq_true, if_false, if_true]


/-- C4 counterexample to the claim as stated: at `now = 1000000` (a clock
within one cooldown of the epoch), local hour 23, production mode, a
message created at 0 passes the silencing check and the quiet-hours gate
with `lastAlert` absent, yet the decision is `suppress`, not the claimed
`AlertNow`: the code stores an absent `lastAlert` as 0, which is
indistinguishable from an alert at the epoch. -/
theorem absent_lastAlert_not_alertNow :
    (emptyRec.handled.getD false = false ∧
     emptyRec.snoozedUntil.getD 0 ≤ 1000000 ∧
     emptyRec.lastAlert = none ∧
     isNightHour 23 = true ∧ 1000000 - 0 < HALF_DAY) ∧
    decideP0 false 23 1000000 0 none = .suppress := by
  decide

/-- C4 witness: a two-minute-testing-mode breach candidate, 1000 s old, with
no record, evaluated at a realistic clock, is decided `alertNow`. -/
theorem cooldown_gate_decision_witness :
    decideP0 true 12 nowRef 999999000000 none = .alertNow :=
  (cooldown_gate_decision true 12 nowRef 999999000000 none (by decide)
    (by decide) (Or.inl (by decide))).2.2 rfl (by decide)

/-- C8: a key whose record has `handled = true` or `snoozedUntil > now` is
decided `NoAction` whatever the message age, no queued alert of the run
carries that key, and the run leaves the record untouched. -/
theorem silenced_record_never_alerts (t : Bool) (hr n : Nat)
    (pages : List (List Msg)) (db : Db) (k : Nat × Nat) (r : Rec)
    (hk : db k = some r)
    (hsil : r.handled.getD false = true ∨ r.snoozedUntil.getD 0 > n) :
    (∀ created, decideP0 t hr n created (some r) = .noAction) ∧
    (∀ m ∈ (scanP0 t hr n db pages).2, keyOf m ≠ k) ∧
    (scanP0 t hr n db pages).1 k = db k := by
  obtain ⟨h1, h2⟩ := scanP0_silenced t hr n pages db k r hk hsil
  exact ⟨fun created => decideP0_silenced t hr n created r hsil, h1, h2⟩

/-- C8 witness: with `clientMsg`'s record marked handled, a run over a page
containing only `clientMsg` leaves the record untouched. -/
theorem silenced_record_never_alerts_witness :
    (scanP0 true 12 nowRef dbHandled [[clientMsg]]).1 (keyOf clientMsg) =
      dbHandled (keyOf clientMsg) :=
  (silenced_record_never_alerts true 12 nowRef [[clientMsg]] dbHandled
    (keyOf clientMsg) ⟨none, none, some true, none⟩ (by decide)
    (Or.inl (by decide))).2.2

/-- C10: a part_000 run either leaves a key's record unchanged or replaces it
wholesale with `{ lastAlert := now, handled := false }` — in particular any
previously stored `snoozedUntil` is erased by an alert, and no `alerted`
field is ever stored. -/
theorem recordAlert_wholesale_replacement (t : Bool) (hr n : Nat)
    (pages : List (List Msg)) (db : Db) (k : Nat × Nat) :
    (scanP0 t hr n db pages).1 k = db k ∨
    (scanP0 t hr n db pages).1 k =
      some { lastAlert := some n, snoozedUntil := none,
             handled := some false, alerted := none } :=
  scanP0_db_cases t hr n pages db k

/-- C5 (amended): in `isAnswered` the reply-after check is evaluated first,
but the reaction lookup is not skipped when a reply-after match is found: the
number of reaction users-fetches depends only on the message's reactions, is
at least one whenever the message has any reaction, and the answer combines
both checks. -/
theorem reaction_lookup_always_runs (m : Msg) (w : List Msg)
    (hrep : hasStaffReply m w = true) (hrx : m.reactions ≠ []) :
    (isAnswered m w).2 = (hasStaffReaction m.reactions).2 ∧
    0 < (isAnswered m w).2 ∧
    (isAnswered m w).1 = true := by
  refine ⟨rfl, hasStaffReaction_pos m.reactions hrx, ?_⟩
  simp [isAnswered, hrep]

/-- C5 witness: a reacted-to client message with a staff reply in the window
still performs a reaction fetch and is answered. -/
theorem reaction_lookup_always_runs_witness :
    0 < (isAnswered clientMsgReacted [clientMsgReacted, staffReplyMsg]).2 :=
  (reaction_lookup_always_runs clientMsgReacted
    [clientMsgReacted, staffReplyMsg] (by decide) (by decide)).2.1

/-- C5 counterexample to the claim as stated: for this message a reply-after
match exists in the window, yet the reaction lookup still executes — one
users-fetch is performed, not zero as "skipped entirely" requires. -/
theorem reaction_lookup_not_skipped_counterexample :
    hasStaffReply clientMsgReacted [clientMsgReacted, staffReplyMsg] = true ∧
    (isAnswered clientMsgReacted [clientMsgReacted, staffReplyMsg]).2 = 1 := by
  decide

/-- C6 (amended): in src/index.js, the window built for a channel contains no
message older than `now - 3h` and the sequence handed to per-message
evaluation is chronologically ascending, whatever order the transport's pages
deliver. (The part_000 variant instead hands the raw fetched page to
evaluation unchanged — see the counterexample.) -/
theorem window_cutoff_and_ascending (now : Nat) (pages : List (List Msg))
    (m : Msg) (hm : m ∈ buildWindow now pages) :
    now - TIME_WINDOW ≤ m.created ∧
    (buildWindow now pages).Pairwise ByCreated := by
  refine ⟨?_, sortWindow_sorted _⟩
  have hm' := (sortWindow_mem _ m).mp hm
  exact fetchRecentMessages_cutoff (now - TIME_WINDOW) pages m hm'

/-- C6 witness: a one-page fetch at the reference instant keeps the fresh
message, which indeed postdates the cutoff. -/
theorem window_cutoff_and_ascending_witness :
    nowRef - TIME_WINDOW ≤ recentMsg.created :=
  (window_cutoff_and_ascending nowRef [[recentMsg]] recentMsg (by decide)).1

/-- C6 counterexample to the claim as stated: the part_000 variant hands the
fetched page directly to evaluation, so its window contains a message far
older than `now - lookback` (whatever lookback is chosen, here 3h before the
reference instant) and is in the transport's newest-first order, not
chronologically ascending. -/
theorem window_p0_counterexample :
    clientMsg ∈ buildWindowP0 [recentMsg, clientMsg] ∧
    clientMsg.created < nowRef - TIME_WINDOW ∧
    ¬ (buildWindowP0 [recentMsg, clientMsg]).Pairwise ByCreated := by
  refine ⟨by decide, by decide, ?_⟩
  intro h
  simp only [buildWindowP0] at h
  rw [List.pairwise_cons] at h
  have := h.1 clientMsg (List.mem_cons_self _ _)
  revert this
  decide

/-- C3 (amended): in src/index.js the dispatch loop marks exactly the ids of
the alerts it successfully sent, after sending — so a failed batch send
leaves that batch and every later batch unsent and unmarked, eligible for
retry. In part_000 however the record is written when the alert is queued,
before any send — see the counterexample. -/
theorem marks_follow_successful_send (db : List Nat) (ok : Nat → Bool)
    (i : Nat) (b : List Msg) (batches : List (List Msg))
    (hfail : ok i = false) :
    (dispatchIdx db ok i (b :: batches)).1 =
      db ++ ((dispatchIdx db ok i (b :: batches)).2).map Msg.msgId ∧
    dispatchIdx db ok i (b :: batches) = (db, []) := by
  refine ⟨dispatchIdx_marks_sent ok (b :: batches) db i, ?_⟩
  simp [dispatchIdx, hfail]

/-- C3 witness: a failing send leaves the id list untouched and sends
nothing. -/
theorem marks_follow_successful_send_witness :
    dispatchIdx [] (fun _ => false) 0 [[clientMsg]] = ([], []) :=
  (marks_follow_successful_send [] (fun _ => false) 0 [clientMsg] [] rfl).2

/-- C3 counterexample to the claim as stated: in a part_000 run whose send
fails, nothing is sent, yet the breaching message's record has already been
set to `{ lastAlert := now, handled := false }` — the store is marked before
the send, so the next run within the cooldown will not retry it. -/
theorem record_marked_despite_send_failure :
    (runP0 true 12 nowRef (fun _ => false) emptyDb [[clientMsg]]).2.2 = [] ∧
    (runP0 true 12 nowRef (fun _ => false) emptyDb [[clientMsg]]).1
      (keyOf clientMsg) = some (freshRec nowRef) := by
  decide

/-- Containment via `List.contains` agrees with membership on id lists. -/
theorem contains_eq_true_iff (l : List Nat) (a : Nat) :
    l.contains a = true ↔ a ∈ l := by
  simp

/-- Everything an index run sends was classified unanswered. -/
theorem runIdx_sent_sub (db : List Nat) (windows : List (List Msg))
    (ok : Nat → Bool) (x : Msg) :
    x ∈ (runIdx db windows ok).2 → x ∈ (classifyAll db windows).1 := by
  intro hx
  simp only [runIdx] at hx
  have hs := dispatchIdx_sent_sub ok (chunk5 (classifyAll db windows).1)
    (List.filter (fun id => !(classifyAll db windows).2.contains id) db) 0 x hx
  rwa [chunk5_join] at hs

/-- Every id in the saved list of an index run either survived the
answered-filter from the incoming list or is the id of a sent alert. -/
theorem runIdx_db_mem (db : List Nat) (windows : List (List Msg))
    (ok : Nat → Bool) (id : Nat) :
    id ∈ (runIdx db windows ok).1 →
      (id ∈ db ∧ (classifyAll db windows).2.contains id = false) ∨
      ∃ x ∈ (runIdx db windows ok).2, x.msgId = id := by
  intro hid
  simp only [runIdx] at hid ⊢
  rw [dispatchIdx_marks_sent] at hid
  rcases List.mem_append.mp hid with h | h
  · left
    rw [List.mem_filter] at h
    exact ⟨h.1, by simpa using h.2⟩
  · right
    obtain ⟨x, hx, hxe⟩ := List.mem_map.mp h
    exact ⟨x, hx, hxe⟩

/-- With unique ids, no classified-unanswered message can carry the id of an
answered message of some window. -/
theorem unanswered_id_ne (db : List Nat) (windows : List (List Msg))
    (hu : UniqueIds windows) (w : List Msg) (hw : w ∈ windows) (m : Msg)
    (hm : m ∈ w) (hans : (isAnswered m w).1 = true) (x : Msg)
    (hx : x ∈ (classifyAll db windows).1) : x.msgId ≠ m.msgId := by
  intro he
  obtain ⟨w', hw', hxw', _, hansx, _⟩ :=
    classifyAll_unanswered_sound db windows x hx
  obtain ⟨hxm, hww⟩ := hu w' hw' w hw x hxw' m hm he
  subst hxm
  subst hww
  rw [hansx] at hans
  exact Bool.false_ne_true hans

/-- With unique ids, the id of an unanswered message of some window never
appears in the answered-id list. -/
theorem unanswered_not_in_answered (db : List Nat)
    (windows : List (List Msg)) (hu : UniqueIds windows) (w : List Msg)
    (hw : w ∈ windows) (x : Msg) (hxw : x ∈ w)
    (hansx : (isAnswered x w).1 = false) :
    x.msgId ∉ (classifyAll db windows).2 := by
  intro hc
  obtain ⟨w2, hw2, m2, hm2, _, hans2, _, he⟩ :=
    classifyAll_answered_sound db windows x.msgId hc
  obtain ⟨hxm, hww⟩ := hu w hw w2 hw2 x hxw m2 hm2 he
  rw [← hxm, ← hww] at hans2
  rw [hansx] at hans2
  exact Bool.false_ne_true hans2

/-- Chunking the empty list gives no batches. -/
theorem chunk5_nil : chunk5 [] = [] := by rw [chunk5]

/-- Explicit form of the saved id list after a fully successful index run:
the answered-filtered incoming ids followed by the ids of all new unanswered
messages. -/
theorem runIdx_all_ok_db (db : List Nat) (windows : List (List Msg)) :
    (runIdx db windows (fun _ => true)).1 =
      (db.filter fun id => !(classifyAll db windows).2.contains id) ++
        (classifyAll db windows).1.map Msg.msgId := by
  simp only [runIdx]
  rw [dispatchIdx_all_ok, chunk5_join]

/-- After a fully successful index run with unique ids, re-classifying the
same windows against the saved id list finds no new unanswered message. -/
theorem runIdx_second_classify_empty (db : List Nat)
    (windows : List (List Msg)) (hu : UniqueIds windows) :
    (classifyAll (runIdx db windows (fun _ => true)).1 windows).1 = [] := by
  rw [List.eq_nil_iff_forall_not_mem]
  intro x hx
  obtain ⟨w', hw', hxw', hskip, hansx, hdbx⟩ :=
    classifyAll_unanswered_sound (runIdx db windows (fun _ => true)).1
      windows x hx
  have hmem : x.msgId ∈ (runIdx db windows (fun _ => true)).1 := by
    rw [runIdx_all_ok_db]
    by_cases hdb0 : x.msgId ∈ db
    · refine List.mem_append_left _ (List.mem_filter.mpr ⟨hdb0, ?_⟩)
      have hna := unanswered_not_in_answered db windows hu w' hw' x hxw' hansx
      simpa using hna
    · refine List.mem_append_right _ (List.mem_map.mpr ⟨x, ?_, rfl⟩)
      refine classifyAll_unanswered_complete db windows w' x hw' hxw' hskip
        hansx ?_
      simpa using hdb0
  rw [(contains_eq_true_iff _ _).mpr hmem] at hdbx
  exact Bool.noConfusion hdbx

/-- C1 (amended): a qualifying staff reply-after blocks alerting in both
variants; a qualifying staff reaction additionally blocks alerting in the
src/index.js variant (where a message answered by reply or reaction is never
sent and never newly recorded), but the part_000 variant consults only
replies — a reaction-only response there does not prevent the alert (see the
counterexample). -/
theorem qualifying_response_blocks_alert :
    (∀ (db : List Nat) (windows : List (List Msg)) (ok : Nat → Bool)
       (w : List Msg) (m : Msg),
       UniqueIds windows → w ∈ windows → m ∈ w →
       (isAnswered m w).1 = true →
       m.msgId ∉ ((runIdx db windows ok).2).map Msg.msgId ∧
       (m.msgId ∈ (runIdx db windows ok).1 → m.msgId ∈ db)) ∧
    (∀ (t : Bool) (hr n : Nat) (page : List Msg) (db : Db) (m : Msg),
       staffReplied m page = true →
       m ∉ (procP0 t hr n page db page).2) := by
  constructor
  · intro db windows ok w m hu hw hm hans
    have hne : ∀ x ∈ (runIdx db windows ok).2, x.msgId ≠ m.msgId := by
      intro x hx
      exact unanswered_id_ne db windows hu w hw m hm hans x
        (runIdx_sent_sub db windows ok x hx)
    constructor
    · intro hmem
      obtain ⟨x, hx, hxe⟩ := List.mem_map.mp hmem
      exact hne x hx hxe
    · intro hmem
      rcases runIdx_db_mem db windows ok m.msgId hmem with ⟨h1, _⟩ |
        ⟨x, hx, hxe⟩
      · exact h1
      · exact absurd hxe (hne x hx)
  · intro t hr n page db m hrep
    exact procP0_staffReplied_no_alert t hr n page page db m hrep

/-- C1 witness: in index.js a reply-and-reaction-answered message is neither
sent nor recorded; in part_000 a staff-replied message is never queued. -/
theorem qualifying_response_blocks_alert_witness :
    clientMsgReacted.msgId ∉
      ((runIdx [] [[clientMsgReacted, staffReplyMsg]]
        (fun _ => true)).2).map Msg.msgId ∧
    clientMsg ∉ (procP0 true 12 nowRef [clientMsg, staffReplyMsg] emptyDb
      [clientMsg, staffReplyMsg]).2 :=
  ⟨(qualifying_response_blocks_alert.1 [] [[clientMsgReacted, staffReplyMsg]]
      (fun _ => true) [clientMsgReacted, staffReplyMsg] clientMsgReacted
      (by decide) (by decide) (by decide) (by decide)).1,
   qualifying_response_blocks_alert.2 true 12 nowRef
      [clientMsg, staffReplyMsg] emptyDb clientMsg (by decide)⟩

/-- C1 counterexample to the claim as stated: in part_000, a message whose
only qualifying response is a staff reaction is still alerted and recorded —
the variant never consults reactions. -/
theorem reaction_response_still_alerts_p0 :
    (hasStaffReaction clientMsgReacted.reactions).1 = true ∧
    staffReplied clientMsgReacted [clientMsgReacted] = false ∧
    clientMsgReacted ∈
      (scanP0 true 12 nowRef emptyDb [[clientMsgReacted]]).2 ∧
    (scanP0 true 12 nowRef emptyDb [[clientMsgReacted]]).1
      (keyOf clientMsgReacted) = some (freshRec nowRef) := by
  decide

/-- C7 (amended): in src/index.js, once a previously alerted message (still
eligible) acquires a qualifying response, the next run drops its id from the
saved list and does not re-send it. In part_000 no record is ever deleted:
an answered message's record persists untouched (see the counterexample),
though the message produces no further alert while the reply stands. -/
theorem answered_alert_record_cleared :
    (∀ (db : List Nat) (windows : List (List Msg)) (ok : Nat → Bool)
       (w : List Msg) (m : Msg),
       UniqueIds windows → w ∈ windows → m ∈ w → skipIdx m = false →
       (isAnswered m w).1 = true → m.msgId ∈ db →
       m.msgId ∉ (runIdx db windows ok).1 ∧
       m.msgId ∉ ((runIdx db windows ok).2).map Msg.msgId) ∧
    (∀ (t : Bool) (hr n : Nat) (pages : List (List Msg)) (db : Db)
       (k : Nat × Nat) (r : Rec), db k = some r →
       (scanP0 t hr n db pages).1 k ≠ none) := by
  constructor
  · intro db windows ok w m hu hw hm hskip hans hdb
    have hne : ∀ x ∈ (runIdx db windows ok).2, x.msgId ≠ m.msgId := by
      intro x hx
      exact unanswered_id_ne db windows hu w hw m hm hans x
        (runIdx_sent_sub db windows ok x hx)
    constructor
    · intro hmem
      rcases runIdx_db_mem db windows ok m.msgId hmem with ⟨_, h2⟩ |
        ⟨x, hx, hxe⟩
      · have hc : (classifyAll db windows).2.contains m.msgId = true := by
          rw [contains_eq_true_iff]
          exact classifyAll_answered_complete db windows w m hw hm hskip hans
            ((contains_eq_true_iff db m.msgId).mpr hdb)
        rw [hc] at h2
        exact Bool.noConfusion h2
      · exact absurd hxe (hne x hx)
    · intro hmem
      obtain ⟨x, hx, hxe⟩ := List.mem_map.mp hmem
      exact hne x hx hxe
  · intro t hr n pages db k r hk hnone
    rcases scanP0_db_cases t hr n pages db k with hc | hc
    · rw [hc, hk] at hnone
      exact Option.noConfusion hnone
    · rw [hc] at hnone
      exact Option.noConfusion hnone

/-- C7 witness: a previously alerted, now reply-answered message has its id
dropped and is not re-sent; and a part_000 record survives the run. -/
theorem answered_alert_record_cleared_witness :
    clientMsg.msgId ∉
      (runIdx [clientMsg.msgId] [[clientMsg, staffReplyMsg]]
        (fun _ => true)).1 ∧
    (scanP0 true 12 nowRef dbWithRecord [[clientMsg, staffReplyMsg]]).1
      (keyOf clientMsg) ≠ none :=
  ⟨(answered_alert_record_cleared.1 [clientMsg.msgId]
      [[clientMsg, staffReplyMsg]] (fun _ => true)
      [clientMsg, staffReplyMsg] clientMsg (by decide) (by decide)
      (by decide) (by decide) (by decide) (by decide)).1,
   answered_alert_record_cleared.2 true 12 nowRef
      [[clientMsg, staffReplyMsg]] dbWithRecord (keyOf clientMsg)
      (freshRec 5) (by decide)⟩

/-- C7 counterexample to the claim as stated: in part_000, a previously
alerted message (record `lastAlert = 5`) that acquired a staff reply keeps
exactly the same record after the next run — nothing is removed and no flag
is cleared. -/
theorem answered_record_persists_p0 :
    staffReplied clientMsg [clientMsg, staffReplyMsg] = true ∧
    dbWithRecord (keyOf clientMsg) = some (freshRec 5) ∧
    (scanP0 true 12 nowRef dbWithRecord [[clientMsg, staffReplyMsg]]).1
      (keyOf clientMsg) = some (freshRec 5) := by
  decide

/-- C9: running either engine twice in immediate succession — same messages,
same clock, the first run's persisted state as input, all sends succeeding —
produces zero alerts on the second run. -/
theorem second_run_no_new_alerts :
    (∀ (t : Bool) (hr n : Nat) (db : Db) (pages : List (List Msg)),
       scanP0 t hr n (scanP0 t hr n db pages).1 pages =
         ((scanP0 t hr n db pages).1, [])) ∧
    (∀ (db : List Nat) (windows : List (List Msg)), UniqueIds windows →
       (runIdx (runIdx db windows (fun _ => true)).1 windows
         (fun _ => true)).2 = []) := by
  constructor
  · intro t hr n db pages
    apply scanP0_noalert
    intro page hp m hm hskip hrep
    exact scanP0_post t hr n pages db page m hp hm hskip hrep
  · intro db windows hu
    have h2 := runIdx_second_classify_empty db windows hu
    simp only [runIdx] at h2 ⊢
    rw [h2, chunk5_nil]
    rfl

/-- C9 witness: a second run over the same single window sends nothing. -/
theorem second_run_no_new_alerts_witness :
    (runIdx (runIdx [] [[clientMsg]] (fun _ => true)).1 [[clientMsg]]
      (fun _ => true)).2 = [] :=
  second_run_no_new_alerts.2 [] [[clientMsg]] (by decide)

end ChannelNotifier
